import Mathlib

/-!
Formal model of the Linky browser extension's context-extraction and
draft-generation pipeline (content.js, langcache.js, research.js,
background.js), with theorems about the extractor's selector ordering,
the orchestrator's idempotence guard, the draft generator's fallback
behaviour, the semantic cache (key round-trip, eviction cap, cosine
similarity) and the DOM injector's HTML escaping.

The JavaScript source is embedded shallowly: pure functions become Lean
functions, stateful code becomes explicit state passing, network calls
and DOM reads become environment parameters recording their outcomes,
and JavaScript numbers used for timestamps and lengths become `Nat`,
embedding vectors become exact reals (`ℝ`), temperatures become `ℚ`.
`Option` models `null`/`undefined`, `Except` models thrown errors or
rejected promises.
-/

namespace Linky

/-! ### JavaScript string primitives

Models of the JavaScript string operations the source relies on,
restricted to the character data actually flowing through the extension
(BMP text; `Char.toNat` models `charCodeAt` for such text). -/

/-- Model of `String.prototype.toLowerCase` (ASCII-faithful). -/
def jsToLower (s : String) : String := String.mk (s.data.map Char.toLower)

/-- Model of `String.prototype.toUpperCase` (ASCII-faithful). -/
def jsToUpper (s : String) : String := String.mk (s.data.map Char.toUpper)

/-- Substring search on character lists, used to model
`String.prototype.includes`. -/
def listHasSubOf (sub : List Char) : List Char → Bool
  | [] => sub.isEmpty
  | c :: rest => sub.isPrefixOf (c :: rest) || listHasSubOf sub rest

/-- Model of `hay.includes(sub)` for JavaScript strings. -/
def jsIncludes (hay sub : String) : Bool := listHasSubOf sub.data hay.data

/-- The character class of the JavaScript regular-expression `\s`
(whitespace), which is also the set of characters removed by
`String.prototype.trim`. -/
def jsWhitespaceChar (c : Char) : Bool :=
  c == ' ' || c == '\t' || c == '\n' || c == '\r' ||
  c == Char.ofNat 11 || c == Char.ofNat 12 || c == Char.ofNat 0xa0 ||
  c == Char.ofNat 0x1680 || (0x2000 ≤ c.toNat && c.toNat ≤ 0x200a) ||
  c == Char.ofNat 0x2028 || c == Char.ofNat 0x2029 || c == Char.ofNat 0x202f ||
  c == Char.ofNat 0x205f || c == Char.ofNat 0x3000 || c == Char.ofNat 0xfeff

/-- Model of `String.prototype.trim`. -/
def jsTrim (s : String) : String :=
  String.mk (((s.data.dropWhile jsWhitespaceChar).reverse.dropWhile jsWhitespaceChar).reverse)

/-- JavaScript `a || b` for option-of-string operands where `none` models
`undefined` and the empty string is falsy. -/
def jsOrString : Option String → Option String → Option String
  | some s, b => if s = "" then b else some s
  | none, b => b

/-- JavaScript `a || b` where only `null`/`undefined` (modelled `none`)
is falsy, e.g. object-valued operands. -/
def jsOrOption {α : Type} : Option α → Option α → Option α
  | some x, _ => some x
  | none, b => b

/-! ### DOM Extractor (content.js lines 49-360)

`extractRecipientInfo` iterates an ordered list of CSS selectors; each
`document.querySelector` call yields at most one element, modelled by a
document function `String → Option DomElement`. The element's candidate
text is `textContent`, falling back to the `aria-label` and then the
`title` attribute, each trimmed. -/

/-- The attributes of a DOM element that `extractRecipientInfo` reads. -/
structure DomElement where
  textContent : Option String
  ariaLabel : Option String
  title : Option String

/-- The candidate-text chain of content.js lines 112-124: `textContent`
trimmed, else `aria-label` trimmed, else `title` trimmed; `none` or the
empty string propagate the fallback. -/
def candidateText (el : DomElement) : Option String :=
  let t1 := el.textContent.map jsTrim
  let t2 := if t1.getD "" = "" then el.ariaLabel.map jsTrim else t1
  if t2.getD "" = "" then el.title.map jsTrim else t2

/-- Text the candidate chain produced for a selector: the element found
by `document.querySelector`, run through the candidate-text chain. -/
def selectorCandidate (doc : String → Option DomElement) (sel : String) : Option String :=
  (doc sel).bind candidateText

/-- The UI-label denylist of content.js lines 128-137 (`isUIText`). -/
def isUIText (text : String) : Bool :=
  let lowerText := jsToLower text
  lowerText == "linkedin" || lowerText == "messaging" || lowerText == "conversation" ||
  lowerText == "new message" || lowerText == "search" ||
  ("linkedin ").data.isPrefixOf lowerText.data ||
  jsIncludes lowerText "linkedin messaging" ||
  jsIncludes lowerText "linkedin conversation"

/-- Membership in the character class of the allow-pattern regular
expression of content.js line 141 (`[a-zA-Z\s\-'\.]`): ASCII letters,
whitespace, hyphen, apostrophe and period. -/
def isNameChar (c : Char) : Bool :=
  c.isAlpha || jsWhitespaceChar c || c == '-' || c == '\'' || c == '.'

/-- Model of the regular-expression test of content.js line 141. -/
def jsNameRegexTest (text : String) : Bool :=
  !text.data.isEmpty && text.data.all isNameChar

/-- The `looksLikeName` conjunction of content.js lines 140-141: the
allow-pattern matches, the length is at least 2, and the text is not
ALL-CAPS unless its length is at most 3. -/
def looksLikeName (text : String) : Bool :=
  jsNameRegexTest text && decide (2 ≤ text.length) &&
    (decide (text.length ≤ 3) || jsToUpper text != text)

/-- The full acceptance test the primary selector loop applies to a
candidate text (content.js lines 126-143): non-empty, shorter than 100
characters, not a UI label, and looks like a name. -/
def validateName (text : String) : Bool :=
  decide (0 < text.length) && decide (text.length < 100) &&
    !(isUIText text) && looksLikeName text

/-- The primary selector loop of content.js lines 109-155: take the
first selector whose element yields a candidate text passing
`validateName`; selectors whose element is missing, whose candidate is
empty, or whose candidate fails validation are skipped. -/
def runNameSelectors (doc : String → Option DomElement) : List String → Option String
  | [] => none
  | sel :: rest =>
    match selectorCandidate doc sel with
    | some text => if validateName text then some text else runNameSelectors doc rest
    | none => runNameSelectors doc rest

/-- The ordered selector list of content.js lines 60-105. -/
def nameSelectors : List String :=
  ["div.msg-s-message-list__name",
   "h2.msg-s-message-list__name",
   "span.msg-s-message-list__name",
   "div[data-testid=\"message-header-name\"]",
   "h2.msg-conversation-listitem__participant-names",
   "div.msg-conversation-header__title h2",
   "div.msg-conversation-header__title span",
   "div.msg-conversation-header__title",
   "div.msg-conversation-header__title h1",
   "header.msg-conversation-header h2",
   "header.msg-conversation-header span",
   "header.msg-conversation-header h1",
   "div[class*=\"conversation-header\"] h2",
   "div[class*=\"conversation-header\"] span",
   "div[class*=\"conversation-header\"] h1",
   "div[class*=\"message-list\"] h2",
   "div[class*=\"message-list\"] h1",
   "div.msg-s-message-list h2",
   "div.msg-s-message-list h1",
   "[aria-label*=\"conversation\"] h2",
   "[aria-label*=\"conversation\"] h1",
   "form.msg-form ~ * h2",
   "form.msg-form ~ * h1",
   "[aria-label]:not([aria-label*=\"button\"]):not([aria-label*=\"link\"])",
   "[data-testid*=\"name\"]",
   "[data-testid*=\"header\"]",
   "div[class*=\"msg-s-message-list\"] h2",
   "div[class*=\"msg-s-message-list\"] h1",
   "div[class*=\"msg-s-message-list\"] span[class*=\"name\"]",
   "main h2",
   "main h1",
   "[role=\"main\"] h2",
   "[role=\"main\"] h1"]

/-- The name produced by the primary selector loop of
`extractRecipientInfo` on the live document (the broadened fallback
search of content.js lines 158-258 runs only when this is `none`). -/
def extractRecipientName (doc : String → Option DomElement) : Option String :=
  runNameSelectors doc nameSelectors

/-- What a selector contributes to the loop: its candidate text if that
text validates, `none` otherwise. -/
def selectorAccepted (doc : String → Option DomElement) (sel : String) : Option String :=
  match selectorCandidate doc sel with
  | some text => if validateName text then some text else none
  | none => none

/-! ### Interaction Classifier (content.js lines 555-654)

`categorizeInteraction` consults the completion-provider key, the stored
category list and one completion call. The environment records the key
lookup's result, the value `chrome.storage.sync.get(["categories"])`
returned (`none` models an absent key, for which the source's `||`
substitutes the defaults; a stored empty array is truthy and kept), and
the outcome of the `fetch` (`Except.error` covers a network throw and a
non-2xx response alike, both of which the source turns into the default;
`Except.ok` carries `data.choices?.[0]?.message?.content`, which may be
absent). -/

/-- The default category list of content.js lines 12-17 and 574-579. -/
def DEFAULT_CATEGORIES : List String :=
  ["Recruiter inbound", "Colleague/friend", "Inbound advice request",
   "Inbound meeting request"]

/-- Inputs and recorded effects of one `categorizeInteraction` run. -/
structure CategorizeEnv where
  openaiApiKey : Option String
  storedCategories : Option (List String)
  apiResponse : Except String (Option String)

/-- The validation predicate of content.js lines 644-645: exact
case-insensitive match, or the category label contained in the model's
(trimmed) answer. `none` models an absent answer, for which both
operands are falsy. -/
def categoryMatches (category : Option String) (cat : String) : Bool :=
  match category with
  | some c => jsToLower cat == jsToLower c || jsIncludes (jsToLower c) (jsToLower cat)
  | none => false

/-- Result of `categorizeInteraction`: the returned value (`none` models
JavaScript `undefined`) and how many completion-endpoint calls ran. -/
structure CategorizeOutcome where
  category : Option String
  completionCalls : Nat
deriving DecidableEq

/-- Model of `categorizeInteraction` (content.js lines 561-654): missing
key short-circuits to `"Recruiter inbound"` with no network call;
request failure or a thrown error also yields `"Recruiter inbound"`; a
successful response is validated against the category list with
`categories[0]` as the default, through JavaScript's `||`. -/
def categorizeInteraction (env : CategorizeEnv) : CategorizeOutcome :=
  match env.openaiApiKey with
  | none => ⟨some "Recruiter inbound", 0⟩
  | some _ =>
    let categories := env.storedCategories.getD DEFAULT_CATEGORIES
    match env.apiResponse with
    | Except.error _ => ⟨some "Recruiter inbound", 1⟩
    | Except.ok content =>
      let category := content.map jsTrim
      let validCategory :=
        jsOrString (categories.find? (categoryMatches category)) categories.head?
      ⟨validCategory, 1⟩

/-! ### Draft Generator (content.js lines 722-895)

`generateMessageDraft` requires the completion-provider key, then tries
the LangCache relay when its credentials are configured, falling back to
a direct completion call on any cache-layer error or empty cache
response. The environment records the key and credential lookups and the
outcomes of the relay call (`callLangCache`, whose rejection carries its
error message) and of the direct `fetch`. -/

/-- The LangCache credentials of `getLangCacheCredentials`
(content.js lines 526-553). -/
structure LangCacheCreds where
  url : String
  apiKey : String
  id : String

/-- Inputs and recorded effects of one `generateMessageDraft` run.
`langCacheResult`'s `Except.ok` carries
`langCacheData.choices?.[0]?.message?.content` (possibly absent);
`directResult`'s `Except.ok` carries the direct call's
`data.choices?.[0]?.message?.content`, its `Except.error` the
`status - errorText` rendering of a non-2xx response. -/
structure DraftEnv where
  openaiApiKey : Option String
  langCacheCreds : Option LangCacheCreds
  langCacheResult : Except String (Option String)
  directResult : Except String (Option String)

/-- Result of `generateMessageDraft`: the returned draft or the thrown
error, and how many network calls (relay plus direct) ran. -/
structure DraftOutcome where
  result : Except String String
  calls : Nat

/-- The direct-call tail of `generateMessageDraft` (content.js lines
860-890): non-2xx throws `OpenAI API error: ...`, an empty trimmed
completion throws `Empty response from OpenAI`. -/
def directOpenAICall (env : DraftEnv) : Except String String :=
  match env.directResult with
  | Except.error e => Except.error ("OpenAI API error: " ++ e)
  | Except.ok content =>
    let message := jsTrim (content.getD "")
    if message = "" then Except.error "Empty response from OpenAI" else Except.ok message

/-- Model of `generateMessageDraft` (content.js lines 727-895): missing
provider key throws; with LangCache credentials the relay is tried first
and a non-empty trimmed cache answer is returned; a relay error or empty
cache answer falls through to the direct call; without credentials the
direct call runs alone. -/
def generateMessageDraft (env : DraftEnv) : DraftOutcome :=
  match env.openaiApiKey with
  | none => ⟨Except.error "OpenAI API key not available", 0⟩
  | some _ =>
    match env.langCacheCreds with
    | some _ =>
      match env.langCacheResult with
      | Except.ok content =>
        let message := jsTrim (content.getD "")
        if message ≠ "" then ⟨Except.ok message, 1⟩
        else ⟨directOpenAICall env, 2⟩
      | Except.error _ => ⟨directOpenAICall env, 2⟩
    | none => ⟨directOpenAICall env, 1⟩

/-- The cache path delivered a draft: credentials were configured and
the relay answered with a non-empty trimmed completion. -/
def cacheDelivers (env : DraftEnv) : Prop :=
  env.langCacheCreds.isSome = true ∧
    ∃ c, env.langCacheResult = Except.ok c ∧ jsTrim (c.getD "") ≠ ""

/-- The direct language-model path fails: the request errors out, or the
model returns an empty (or absent) completion. -/
def directFails (env : DraftEnv) : Prop :=
  (∃ e, env.directResult = Except.error e) ∨
    (∃ c, env.directResult = Except.ok c ∧ jsTrim (c.getD "") = "")

/-! ### Semantic cache (langcache.js)

The cache key is a 32-bit string hash of the prompt joined with a JSON
rendering of the call context; entries live in a JavaScript object
persisted under `langcache_entries`, modelled as an insertion-ordered
association list (the object's key order for non-integer string keys).
Number-valued context fields are modelled as exact rationals together
with a decimal rendering standing for JavaScript's number-to-string
conversion on the values the extension uses. -/

/-- Signed 32-bit wrap-around, modelling JavaScript's `ToInt32` (the
`x & x` and `<<` coercions in the hash loop). -/
def jsToInt32 (n : Int) : Int := (n + 2 ^ 31) % 2 ^ 32 - 2 ^ 31

/-- One iteration of the hash loop of `generateCacheKey` (langcache.js
lines 190-194): `hash = ((hash << 5) - hash) + char; hash = hash & hash`. -/
def jsHashStep (hash : Int) (code : Nat) : Int :=
  jsToInt32 (jsToInt32 (hash * 32) - hash + code)

/-- The full hash loop over the key data's character codes. -/
def jsHashString (s : String) : Int :=
  s.data.foldl (fun h c => jsHashStep h c.toNat) 0

/-- Digit characters of `Number.prototype.toString(36)` (0-9 then a-z). -/
def base36Digit (d : Nat) : Char :=
  if d < 10 then Char.ofNat (48 + d) else Char.ofNat (87 + d)

/-- Base-36 digits of `n`, most significant first, with `n` itself as
recursion fuel (enough since `n / 36 < n` for positive `n`). -/
def natToBase36Aux : Nat → Nat → List Char
  | 0, _ => []
  | _, 0 => []
  | fuel + 1, n + 1 => natToBase36Aux fuel ((n + 1) / 36) ++ [base36Digit ((n + 1) % 36)]

/-- Model of `Math.abs(hash).toString(36)`'s digit string for a natural
number. -/
def natToBase36 (n : Nat) : String :=
  if n = 0 then "0" else String.mk (natToBase36Aux n n)

/-- JSON escaping of one character inside a string literal, per
`JSON.stringify` (quote, backslash, the short control escapes, and
`\u00XX` for remaining control characters). -/
def jsonEscapeChar (c : Char) : List Char :=
  if c = '"' then ['\\', '"']
  else if c = '\\' then ['\\', '\\']
  else if c = Char.ofNat 8 then ['\\', 'b']
  else if c = '\t' then ['\\', 't']
  else if c = '\n' then ['\\', 'n']
  else if c = Char.ofNat 12 then ['\\', 'f']
  else if c = '\r' then ['\\', 'r']
  else if c.toNat < 32 then
    ['\\', 'u', '0', '0', base36Digit (c.toNat / 16), base36Digit (c.toNat % 16)]
  else [c]

/-- A JSON string literal for `s`, as `JSON.stringify` renders it. -/
def jsonQuote (s : String) : String :=
  "\"" ++ String.mk (s.data.flatMap jsonEscapeChar) ++ "\""

/-- Pad a digit list on the left with zeros to length `n`. -/
def padLeftZeros (s : List Char) (n : Nat) : List Char :=
  List.replicate (n - s.length) '0' ++ s

/-- Decimal rendering of a rational, modelling JavaScript's
number-to-string conversion on the finite decimal values the extension
passes as temperatures and token limits (integers print without a
point; other values with up to ten decimal places print as decimals). -/
def jsNumToString (q : ℚ) : String :=
  if q.den = 1 then toString q.num
  else
    match (List.range 10).find? (fun k => (q * (10 : ℚ) ^ (k + 1)).den = 1) with
    | some k =>
      let sign := if q < 0 then "-" else ""
      let digits := padLeftZeros (toString (q * (10 : ℚ) ^ (k + 1)).num.natAbs).data (k + 2)
      sign ++ String.mk (digits.take (digits.length - (k + 1))) ++ "." ++
        String.mk (digits.drop (digits.length - (k + 1)))
    | none => toString q.num ++ "/" ++ toString q.den

/-- The context object `generateCacheKey` receives (model, temperature,
max tokens, system prompt); `none` models an absent (`undefined`)
property. -/
structure CacheContext where
  model : Option String
  temperature : Option ℚ
  maxTokens : Option ℚ
  systemPrompt : Option String

/-- The `JSON.stringify` rendering of the context object built in
`generateCacheKey` (langcache.js lines 177-182): `model` defaults to
`gpt-4o-mini` and `temperature` to `0.7` through JavaScript's `||`
(so a falsy `""` model or `0` temperature also defaults), and
properties holding `undefined` are omitted. -/
def stringifyCacheContext (ctx : CacheContext) : String :=
  let modelVal :=
    match ctx.model with
    | some m => if m = "" then "gpt-4o-mini" else m
    | none => "gpt-4o-mini"
  let tempVal :=
    match ctx.temperature with
    | some t => if t = 0 then (7 : ℚ) / 10 else t
    | none => (7 : ℚ) / 10
  "\x7b\"model\":" ++ jsonQuote modelVal ++ ",\"temperature\":" ++ jsNumToString tempVal ++
    (match ctx.maxTokens with
     | some mt => ",\"maxTokens\":" ++ jsNumToString mt
     | none => "") ++
    (match ctx.systemPrompt with
     | some sp => ",\"systemPrompt\":" ++ jsonQuote sp
     | none => "") ++ "\x7d"

/-- Model of `generateCacheKey` (langcache.js lines 176-197): hash of
`prompt|contextStr` rendered in base 36 under the `langcache:` tag. -/
def generateCacheKey (prompt : String) (ctx : CacheContext) : String :=
  let contextStr := stringifyCacheContext ctx
  let keyData := prompt ++ "|" ++ contextStr
  "langcache:" ++ natToBase36 (jsHashString keyData).natAbs

/-- The metadata object `cachedOpenAICall` passes to `storeInRedis`
(model, temperature, max tokens, system prompt). -/
structure CacheMeta where
  model : Option String
  temperature : Option ℚ
  maxTokens : Option ℚ
  systemPrompt : Option String

/-- A persisted cache entry (langcache.js lines 307-316); embeddings
are exact-real vectors, `metaTimestamp` is the `Date.now()` value
`storeInRedis` stamps into the metadata. -/
structure CacheEntry where
  key : String
  prompt : String
  response : String
  embedding : Option (List ℝ)
  metaBase : CacheMeta
  metaTimestamp : Nat

/-- The persisted cache: whether a Redis connection is configured
(`getRedisConnection` non-null) and the `langcache_entries` object as an
insertion-ordered association list. -/
structure CacheState where
  redisConfigured : Bool
  entries : List (String × CacheEntry)

/-- JavaScript object update `entries[k] = v`: an existing key keeps its
position, a new key is appended. -/
def jsObjectSet (entries : List (String × CacheEntry)) (k : String) (v : CacheEntry) :
    List (String × CacheEntry) :=
  if entries.any (fun p => p.1 == k) then
    entries.map (fun p => if p.1 == k then (k, v) else p)
  else entries ++ [(k, v)]

/-- Timestamp of a stored pair, as the eviction comparator reads it. -/
def entryTs (p : String × CacheEntry) : Nat := p.2.metaTimestamp

/-- The eviction order: ascending timestamp. -/
def tsLE (a b : String × CacheEntry) : Prop := entryTs a ≤ entryTs b

instance : DecidableRel tsLE := fun a b => Nat.decLe (entryTs a) (entryTs b)

instance : IsTotal (String × CacheEntry) tsLE := ⟨fun a b => Nat.le_total (entryTs a) (entryTs b)⟩

instance : IsTrans (String × CacheEntry) tsLE := ⟨fun _ _ _ => Nat.le_trans⟩

/-- The stable ascending sort `keys.sort((a, b) => tsa - tsb)` performs
(langcache.js lines 328-330), carried out on the pairs themselves: a
stable insertion sort agrees with every stable sort under a total
preorder. -/
def sortEntriesByTs (l : List (String × CacheEntry)) : List (String × CacheEntry) :=
  List.insertionSort tsLE l

/-- Model of `storeInRedis` (langcache.js lines 296-342): no configured
connection skips storage; otherwise the entry is written under its key
with the current time stamped into its metadata, and when the object
then holds more than 1000 entries the oldest-by-timestamp keys beyond
1000 are deleted. Returns the updated state and the success flag. -/
def storeInRedis (now : Nat) (cacheKey promptText response : String)
    (embedding : Option (List ℝ)) (meta : CacheMeta) (st : CacheState) :
    CacheState × Bool :=
  if st.redisConfigured = false then (st, false)
  else
    let entry : CacheEntry := ⟨cacheKey, promptText, response, embedding, meta, now⟩
    let entries := jsObjectSet st.entries cacheKey entry
    let entries2 :=
      if 1000 < entries.length then
        let evictKeys := ((sortEntriesByTs entries).map Prod.fst).take (entries.length - 1000)
        entries.filter (fun p => !(evictKeys.contains p.1))
      else entries
    (⟨st.redisConfigured, entries2⟩, true)

/-- Model of `getFromRedis` (langcache.js lines 349-372): `none` without
a configured connection, else the entry stored under the key. -/
def getFromRedis (cacheKey : String) (st : CacheState) : Option CacheEntry :=
  if st.redisConfigured = false then none
  else (st.entries.find? (fun p => p.1 == cacheKey)).map Prod.snd

/-- The accumulating loop of `cosineSimilarity` (langcache.js lines
249-253) applied to two vectors of equal length: for `sumProd v v` it
accumulates the squared norm. -/
def sumProd : List ℝ → List ℝ → ℝ
  | a :: as, b :: bs => a * b + sumProd as bs
  | _, _ => 0

open Classical in
/-- Model of `cosineSimilarity` (langcache.js lines 240-257) over exact
reals: 0 for a `null` vector, a length mismatch, or a zero denominator;
otherwise the normalized dot product. -/
noncomputable def cosineSimilarity (vec1 vec2 : Option (List ℝ)) : ℝ :=
  match vec1, vec2 with
  | some v1, some v2 =>
    if v1.length ≠ v2.length then 0
    else
      let denominator := Real.sqrt (sumProd v1 v1) * Real.sqrt (sumProd v2 v2)
      if denominator = 0 then 0 else sumProd v1 v2 / denominator
  | _, _ => 0

open Classical in
/-- The best-match scan of `semanticSearch` (langcache.js lines
397-409): iterate the entries in object order, keeping the first
highest similarity at or above the threshold among entries that carry
an embedding. -/
noncomputable def semanticScan (queryEmbedding : List ℝ) (threshold : ℝ)
    (entries : List (String × CacheEntry)) : Option (CacheEntry × ℝ) :=
  (entries.foldl
    (fun acc p =>
      match p.2.embedding with
      | some emb =>
        let similarity := cosineSimilarity (some queryEmbedding) (some emb)
        if threshold ≤ similarity ∧ acc.2 < similarity then (some (p.2, similarity), similarity)
        else acc
      | none => acc)
    (none, 0)).1

/-- Model of `semanticSearch` (langcache.js lines 381-421): `none`
without a query embedding or a configured connection, else the scan. -/
noncomputable def semanticSearch (queryEmbedding : Option (List ℝ)) (threshold : ℝ)
    (st : CacheState) : Option (CacheEntry × ℝ) :=
  match queryEmbedding with
  | none => none
  | some emb =>
    if st.redisConfigured = false then none else semanticScan emb threshold st.entries

/-- A chat message as `cachedOpenAICall` receives it. -/
structure ChatMessage where
  role : String
  content : String

/-- The destructured parameters of `cachedOpenAICall` (langcache.js
lines 438-447), with the destructuring defaults already applied to
`model`, `temperature`, `useSemanticCache` and `semanticThreshold`. -/
structure CachedCallParams where
  model : String
  messages : List ChatMessage
  temperature : ℚ
  maxTokens : Option ℚ
  openaiApiKey : Option String
  useSemanticCache : Bool
  semanticThreshold : ℝ

/-- Recorded outcomes of the external calls one `cachedOpenAICall` run
may perform: the embedding call's vector (`none` also models its
error-swallowing failure path) and the completion call's response
(`Except.ok` carries `data.choices?.[0]?.message?.content`), plus the
`Date.now()` value used when storing. -/
structure CallEnv where
  embeddingResult : Option (List ℝ)
  apiResult : Except String (Option String)
  now : Nat

/-- Result of `cachedOpenAICall`: the returned completion (content,
`cached` flag and optional similarity) or the thrown error, the cache
state afterwards, and how many completion-endpoint and
embedding-endpoint calls ran. -/
structure CallOutcome where
  result : Except String (String × Bool × Option ℝ)
  state : CacheState
  completionCalls : Nat
  embeddingCalls : Nat

/-- The cache-miss tail of `cachedOpenAICall` (langcache.js lines
505-566): perform the completion call, and on a non-empty response
store it (with a second embedding call when semantic caching is on)
before returning it with `cached: false`. -/
noncomputable def cachedCallApi (p : CachedCallParams) (env : CallEnv) (st : CacheState)
    (promptText systemPrompt cacheKey : String) (embCalls : Nat) : CallOutcome :=
  match env.apiResult with
  | Except.error e => ⟨Except.error ("OpenAI API error: " ++ e), st, 1, embCalls⟩
  | Except.ok content =>
    let responseContent := content.getD ""
    if responseContent ≠ "" then
      let emb := if p.useSemanticCache then env.embeddingResult else none
      let embCalls2 := if p.useSemanticCache then embCalls + 1 else embCalls
      let st2 := (storeInRedis env.now cacheKey promptText responseContent emb
        ⟨some p.model, some p.temperature, p.maxTokens, some systemPrompt⟩ st).1
      ⟨Except.ok (responseContent, false, none), st2, 1, embCalls2⟩
    else ⟨Except.ok (responseContent, false, none), st, 1, embCalls⟩

/-- The post-exact-miss part of `cachedOpenAICall` (langcache.js lines
481-503): the semantic lookup (one embedding call; a hit with a
non-empty response returns `cached: true` with its similarity), then
the real call. -/
noncomputable def cachedCallAfterExact (p : CachedCallParams) (env : CallEnv) (st : CacheState)
    (promptText systemPrompt cacheKey : String) : CallOutcome :=
  if p.useSemanticCache then
    match env.embeddingResult with
    | some qe =>
      match semanticSearch (some qe) p.semanticThreshold st with
      | some (entry, similarity) =>
        if entry.response ≠ "" then
          ⟨Except.ok (entry.response, true, some similarity), st, 0, 1⟩
        else cachedCallApi p env st promptText systemPrompt cacheKey 1
      | none => cachedCallApi p env st promptText systemPrompt cacheKey 1
    | none => cachedCallApi p env st promptText systemPrompt cacheKey 1
  else cachedCallApi p env st promptText systemPrompt cacheKey 0

/-- Model of `cachedOpenAICall` (langcache.js lines 437-567): require a
provider key, extract the first user and system messages, compute the
exact-match key, return a stored non-empty response as an exact hit with
`cached: true` and no further calls, and otherwise continue with the
semantic lookup and the real call. -/
noncomputable def cachedOpenAICall (p : CachedCallParams) (env : CallEnv) (st : CacheState) :
    CallOutcome :=
  match p.openaiApiKey with
  | none => ⟨Except.error "OpenAI API key is required", st, 0, 0⟩
  | some _ =>
    let promptText := ((p.messages.find? (fun m => m.role == "user")).map
      (fun m => m.content)).getD ""
    let systemPrompt := ((p.messages.find? (fun m => m.role == "system")).map
      (fun m => m.content)).getD ""
    let cacheKey := generateCacheKey promptText
      ⟨some p.model, some p.temperature, p.maxTokens, some systemPrompt⟩
    match getFromRedis cacheKey st with
    | some ec =>
      if ec.response ≠ "" then ⟨Except.ok (ec.response, true, none), st, 0, 0⟩
      else cachedCallAfterExact p env st promptText systemPrompt cacheKey
    | none => cachedCallAfterExact p env st promptText systemPrompt cacheKey

/-! ### DOM Injector (content.js lines 956-1014)

`insertMessage` escapes the message with a detached `div`'s
`textContent`/`innerHTML` round trip — which serializes `&`, `<` and `>`
as entities — replaces each newline with `<br>`, wraps the result in a
paragraph and writes it to the field's `innerHTML`. The host page's
parse of that fragment back into rendered text (entities decoded, `<br>`
a line break, the `<p>` wrapper transparent) is modelled by
`renderFrag`. -/

/-- Serialization of one text character by the `escapeHtml` helper of
content.js lines 974-978 (`div.textContent = text; div.innerHTML`):
`&`, `<` and `>` become entities, everything else is literal. -/
def escapeHtmlChar (c : Char) : List Char :=
  if c = '&' then ['&', 'a', 'm', 'p', ';']
  else if c = '<' then ['&', 'l', 't', ';']
  else if c = '>' then ['&', 'g', 't', ';']
  else [c]

/-- Model of the `escapeHtml` helper. -/
def escapeHtml (s : String) : String := String.mk (s.data.flatMap escapeHtmlChar)

/-- The global replacement `escaped.replace(/\n/g, "<br>")` of
content.js line 982, as a per-character map (the pattern is a single
character). -/
def breakNewlineChar (c : Char) : List Char :=
  if c = '\n' then ['<', 'b', 'r', '>'] else [c]

/-- The HTML written into the input field by `insertMessage`
(content.js line 982): `<p>` wrapping the escaped message with newlines
turned into `<br>`. -/
def insertedHTML (message : String) : String :=
  "<p>" ++ String.mk ((escapeHtml message).data.flatMap breakNewlineChar) ++ "</p>"

/-- The rendered text of the restricted HTML fragments `insertMessage`
produces, modelling the host page's parse: the three entities decode,
`<br>` renders as a line break, the `<p>` wrapper is transparent, and
every other character is literal text. -/
def renderFrag : List Char → List Char
  | [] => []
  | '&' :: 'a' :: 'm' :: 'p' :: ';' :: rest => '&' :: renderFrag rest
  | '&' :: 'l' :: 't' :: ';' :: rest => '<' :: renderFrag rest
  | '&' :: 'g' :: 't' :: ';' :: rest => '>' :: renderFrag rest
  | '<' :: 'b' :: 'r' :: '>' :: rest => '\n' :: renderFrag rest
  | '<' :: 'p' :: '>' :: rest => renderFrag rest
  | '<' :: '/' :: 'p' :: '>' :: rest => renderFrag rest
  | c :: rest => c :: renderFrag rest

/-- Rendered text of a fragment given as a string. -/
def renderedText (html : String) : String := String.mk (renderFrag html.data)

/-! ### Orchestrator (content.js lines 1080-1183)

Input fields are identified by numbers; the page state carries the two
per-node marker sets (`processedInputs`, `messageGenerationInProgress`)
and each field's content. `generateAndInsertMessage` is modelled as a
state transition returning the new state and the number of network
calls performed; the outcomes of the pipeline's stages are drawn from an
environment fixed for the run. -/

/-- The page state the content script manipulates. -/
structure PageState where
  processed : List Nat
  inProgress : List Nat
  content : Nat → String

/-- The recipient record `extractRecipientInfo` returns. -/
structure RecipientInfo where
  name : String
  byline : Option String

/-- Model of `insertMessage` (content.js lines 963-1014): an empty (or
absent) message returns `false` untouched; otherwise the field receives
the escaped HTML, the node is added to the processed set, and `true` is
returned. -/
def insertMessage (node : Nat) (message : String) (st : PageState) : PageState × Bool :=
  if message = "" then (st, false)
  else
    (⟨node :: st.processed, st.inProgress,
      fun n => if n = node then insertedHTML message else st.content n⟩, true)

/-- The emptiness test of content.js lines 1086-1092: blank trimmed
content, or LinkedIn's placeholder markup. -/
def isEmptyContent (s : String) : Bool :=
  jsTrim s == "" || jsTrim s == "<p><br></p>" || jsTrim s == "<br>"

/-- Stage outcomes for one `generateAndInsertMessage` run: the three
recipient-extraction attempts (initial, after 1s, after 2s), the number
of network calls made by the summarizer and research stages, and the
environments of the classification and draft-generation stages. -/
structure OrchEnv where
  extract1 : Option RecipientInfo
  extract2 : Option RecipientInfo
  extract3 : Option RecipientInfo
  enrichmentCalls : Nat
  categorizeEnv : CategorizeEnv
  draftEnv : DraftEnv

/-- The extraction error message of content.js lines 1121-1122. -/
def extractionErrorText : String :=
  "Could not extract recipient information. Please ensure you are on a LinkedIn chat page and the page has fully loaded."

/-- Model of `generateAndInsertMessage` (content.js lines 1080-1183): a
node already processed or in progress returns immediately, as does a
non-empty field; otherwise the node is marked in progress, recipient
extraction is retried up to three times, the pipeline stages run, the
draft (or a bracketed error text) is inserted, and the in-progress mark
is removed. Returns the new state and the number of network calls. -/
def generateAndInsertMessage (env : OrchEnv) (node : Nat) (st : PageState) :
    PageState × Nat :=
  if node ∈ st.processed ∨ node ∈ st.inProgress then (st, 0)
  else if isEmptyContent (st.content node) = false then (st, 0)
  else
    let st1 : PageState := ⟨st.processed, node :: st.inProgress, st.content⟩
    match jsOrOption env.extract1 (jsOrOption env.extract2 env.extract3) with
    | none =>
      let st2 := (insertMessage node ("[Error: " ++ extractionErrorText ++ "]") st1).1
      (⟨st2.processed, st2.inProgress.erase node, st2.content⟩, 0)
    | some _ =>
      let categorizeOut := categorizeInteraction env.categorizeEnv
      let draftOut := generateMessageDraft env.draftEnv
      let calls := env.enrichmentCalls + categorizeOut.completionCalls + draftOut.calls
      match draftOut.result with
      | Except.ok message =>
        let st2 := (insertMessage node message st1).1
        (⟨st2.processed, st2.inProgress.erase node, st2.content⟩, calls)
      | Except.error e =>
        let msg := if e = "" then "Failed to generate message draft" else e
        let st2 := (insertMessage node ("[Error: " ++ msg ++ "]") st1).1
        (⟨st2.processed, st2.inProgress.erase node, st2.content⟩, calls)

/-! ### Theorems -/

/-- C1: for every document state, when an ordered selector list splits
as `pre ++ sel :: post` where no selector of `pre` yields a validated
candidate and `sel` yields the validated candidate `t`, the primary
selector loop of `extractRecipientInfo` returns `t` — the earliest
matching, validated selector wins, regardless of what the selectors of
`post` would match. -/
theorem firstValidatedSelectorWins (doc : String → Option DomElement)
    (pre post : List String) (sel t : String)
    (hpre : ∀ s ∈ pre, selectorAccepted doc s = none)
    (hsel : selectorAccepted doc sel = some t) :
    runNameSelectors doc (pre ++ sel :: post) = some t := by
  induction pre with
  | nil =>
    simp only [List.nil_append, runNameSelectors]
    cases h : selectorCandidate doc sel with
    | none => rw [selectorAccepted, h] at hsel; exact absurd hsel (by simp)
    | some text =>
      rw [selectorAccepted, h] at hsel
      by_cases hv : validateName text = true
      · simp only [hv, if_true] at hsel ⊢
        exact hsel
      · simp [hv] at hsel
  | cons s pre ih =>
    have hs := hpre s (by simp)
    have hrest : ∀ x ∈ pre, selectorAccepted doc x = none :=
      fun x hx => hpre x (by simp [hx])
    simp only [List.cons_append, runNameSelectors]
    cases h : selectorCandidate doc s with
    | none => exact ih hrest
    | some text =>
      rw [selectorAccepted, h] at hs
      by_cases hv : validateName text = true
      · simp [hv] at hs
      · simp only [hv, if_false, Bool.false_eq_true]
        exact ih hrest

/-- A document in which the third selector of `nameSelectors` finds
"Jane Doe" and the eighth finds "Bob Smith". -/
def exampleDoc : String → Option DomElement := fun sel =>
  if sel = "span.msg-s-message-list__name" then some ⟨some "Jane Doe", none, none⟩
  else if sel = "div.msg-conversation-header__title" then some ⟨some "Bob Smith", none, none⟩
  else none

/-- Witness for C1: on `exampleDoc` the loop over the real selector
list returns the third selector's "Jane Doe", not the later match. -/
theorem firstValidatedSelectorWinsWitness :
    runNameSelectors exampleDoc nameSelectors = some "Jane Doe" := by
  have hsplit : nameSelectors =
      ["div.msg-s-message-list__name", "h2.msg-s-message-list__name"] ++
        "span.msg-s-message-list__name" :: nameSelectors.drop 3 := by rfl
  rw [hsplit]
  exact firstValidatedSelectorWins exampleDoc _ _ _ _ (by decide) (by decide)

/-- C2: a node already in the processed set or in the in-progress set
makes `generateAndInsertMessage` return at once: the page state —
including the field's content — is unchanged and no network call runs;
the pipeline is never entered a second time for such a node. -/
theorem orchestratorIdempotenceGuard (env : OrchEnv) (node : Nat) (st : PageState)
    (h : node ∈ st.processed ∨ node ∈ st.inProgress) :
    generateAndInsertMessage env node st = (st, 0) := by
  simp [generateAndInsertMessage, h]

/-- A pipeline environment for the guard witness. -/
def exampleOrchEnv : OrchEnv :=
  ⟨none, none, none, 0, ⟨none, none, Except.error "offline"⟩,
    ⟨none, none, Except.error "offline", Except.error "offline"⟩⟩

/-- A page whose field 7 is already processed. -/
def examplePage : PageState := ⟨[7], [], fun _ => ""⟩

/-- Witness for C2: re-invoking the orchestrator on the processed field
7 changes nothing and performs zero network calls. -/
theorem orchestratorIdempotenceGuardWitness :
    generateAndInsertMessage exampleOrchEnv 7 examplePage = (examplePage, 0) :=
  orchestratorIdempotenceGuard exampleOrchEnv 7 examplePage (Or.inl (by decide))

/-- C8 counterexample: "Mr. Smith" is accepted by the primary loop's
validation, yet it contains a character outside the allow-set the claim
states (letters, spaces, hyphens, apostrophes) — the source's pattern
also admits periods. -/
theorem nameAllowPatternCounterexample :
    validateName "Mr. Smith" = true ∧
      ("Mr. Smith").data.all
        (fun c => c.isAlpha || jsWhitespaceChar c || c == '-' || c == '\'') = false := by
  constructor
  · decide
  · decide

/-- C8 (amended: the allow-pattern admits letters, whitespace, hyphens,
apostrophes and periods): a candidate text accepted by the primary
selector loop passes the UI-label denylist, consists only of letters,
whitespace, hyphens, apostrophes and periods, and if it is ALL-CAPS its
length is at most 3. -/
theorem nameValidationOnlyIf (text : String) (h : validateName text = true) :
    isUIText text = false ∧
      (∀ c ∈ text.data,
        c.isAlpha = true ∨ jsWhitespaceChar c = true ∨ c = '-' ∨ c = '\'' ∨ c = '.') ∧
      (jsToUpper text = text → text.length ≤ 3) := by
  unfold validateName looksLikeName jsNameRegexTest at h
  simp only [Bool.and_eq_true, Bool.or_eq_true, decide_eq_true_eq, Bool.not_eq_true',
    bne_iff_ne, ne_eq] at h
  obtain ⟨⟨⟨-, -⟩, hui⟩, ⟨⟨-, hall⟩, -⟩, hcaps⟩ := h
  refine ⟨hui, ?_, ?_⟩
  · intro c hc
    have hcn := List.all_eq_true.mp hall c hc
    unfold isNameChar at hcn
    simp only [Bool.or_eq_true, beq_iff_eq] at hcn
    tauto
  · intro hup
    rcases hcaps with hle | hne
    · exact hle
    · exact absurd hup hne

/-- Witness for C8's amended theorem, applied to the accepted candidate
"Jane Doe". -/
theorem nameValidationOnlyIfWitness :
    isUIText "Jane Doe" = false ∧
      (∀ c ∈ ("Jane Doe").data,
        c.isAlpha = true ∨ jsWhitespaceChar c = true ∨ c = '-' ∨ c = '\'' ∨ c = '.') ∧
      (jsToUpper "Jane Doe" = "Jane Doe" → ("Jane Doe").length ≤ 3) :=
  nameValidationOnlyIf "Jane Doe" (by decide)

/-- C6 counterexample: with a provider key, a stored empty category
list (reachable, since `deleteCategory` lets the last category be
removed and an empty array is truthy under the `||` fallback) and a
successful response, `categorizeInteraction` returns `undefined` — so
"never returns null in any case" fails on the successful-response
path. -/
theorem categorizeNeverNullCounterexample :
    (categorizeInteraction ⟨some "sk-key", some [], Except.ok (some "Recruiter inbound")⟩).category
      = none := by
  rfl

/-- C6 (amended: with no provider key the fixed default category is
returned synchronously with no network call, every failure path yields
a category, and on the successful-response path the result is a
category whenever the effective category list is non-empty; with a
stored empty list that path returns `undefined`). -/
theorem categorizeFallbacks (env : CategorizeEnv) :
    (env.openaiApiKey = none → categorizeInteraction env = ⟨some "Recruiter inbound", 0⟩) ∧
      (∀ e, env.apiResponse = Except.error e →
        (categorizeInteraction env).category = some "Recruiter inbound") ∧
      (env.storedCategories.getD DEFAULT_CATEGORIES ≠ [] →
        (categorizeInteraction env).category.isSome = true) := by
  obtain ⟨key, cats, resp⟩ := env
  refine ⟨?_, ?_, ?_⟩
  · rintro rfl; rfl
  · rintro e rfl
    cases key with
    | none => rfl
    | some k => rfl
  · intro hne
    cases key with
    | none => rfl
    | some k =>
      cases resp with
      | error e => rfl
      | ok content =>
        simp only [categorizeInteraction]
        have hh : (cats.getD DEFAULT_CATEGORIES).head?.isSome = true := by
          cases hcats : cats.getD DEFAULT_CATEGORIES with
          | nil => exact absurd hcats hne
          | cons a l => rfl
        cases hfind : (cats.getD DEFAULT_CATEGORIES).find? (categoryMatches (content.map jsTrim)) with
        | none => simpa [jsOrString] using hh
        | some s =>
          by_cases hs : s = "" <;> simp [jsOrString, hs, hh]

/-- Witness for C6's amended theorem: the no-key path returns the
default with zero calls, and a non-empty configured list yields a
category on the successful path. -/
theorem categorizeFallbacksWitness :
    categorizeInteraction ⟨none, none, Except.error "boom"⟩ = ⟨some "Recruiter inbound", 0⟩ ∧
      (categorizeInteraction
        ⟨some "sk", some ["Colleague/friend"], Except.ok (some "nonsense")⟩).category.isSome
        = true :=
  ⟨(categorizeFallbacks ⟨none, none, Except.error "boom"⟩).1 rfl,
    (categorizeFallbacks ⟨some "sk", some ["Colleague/friend"], Except.ok (some "nonsense")⟩).2.2
      (by decide)⟩

/-- C10: with no provider key, `categorizeInteraction` returns the
constant "Recruiter inbound" without consulting the stored list, so
that result lies outside any configured list that does not contain it;
and on the successful-response path a label matching no configured
category defaults to the first configured category. -/
theorem noKeyCategoryBypassesConfiguredList :
    (∀ (env : CategorizeEnv) (cats : List String),
      env.openaiApiKey = none → "Recruiter inbound" ∉ cats →
        (categorizeInteraction env).category = some "Recruiter inbound" ∧
          ∀ c ∈ cats, (categorizeInteraction env).category ≠ some c) ∧
      (∀ (k : String) (cats : List String) (resp : Option String),
        cats.find? (categoryMatches (resp.map jsTrim)) = none →
          (categorizeInteraction ⟨some k, some cats, Except.ok resp⟩).category = cats.head?) := by
  constructor
  · intro env cats hkey hnotin
    obtain ⟨key, sc, resp⟩ := env
    cases hkey
    refine ⟨rfl, ?_⟩
    intro c hc heq
    have hc' : "Recruiter inbound" = c := by
      have h0 : (categorizeInteraction ⟨none, sc, resp⟩).category = some "Recruiter inbound" := rfl
      rw [h0, Option.some.injEq] at heq
      exact heq
    rw [hc'] at hnotin
    exact hnotin hc
  · intro k cats resp hfind
    simp [categorizeInteraction, hfind, jsOrString]

/-- The direct-call tail throws exactly when the direct path fails
(request error or empty completion). -/
theorem directOpenAICall_error_iff (env : DraftEnv) :
    (∃ e, directOpenAICall env = Except.error e) ↔ directFails env := by
  unfold directOpenAICall directFails
  cases h : env.directResult with
  | error e => simp
  | ok c =>
    by_cases hc : jsTrim (c.getD "") = "" <;> simp [hc]

/-- C3: `generateMessageDraft` throws exactly when the provider key is
missing (which defeats both paths), or the cache path does not deliver
a non-empty completion and the direct path fails or returns an empty
completion; in particular, with a key present, no cache-layer outcome
alone can make the call fail when the direct path succeeds. -/
theorem generateDraftFailureCondition (env : DraftEnv) :
    ((∃ e, (generateMessageDraft env).result = Except.error e) ↔
      (env.openaiApiKey = none ∨ (¬ cacheDelivers env ∧ directFails env))) ∧
      (env.openaiApiKey.isSome = true → ¬ directFails env →
        ∃ m, (generateMessageDraft env).result = Except.ok m) := by
  obtain ⟨key, creds, cacheRes, directRes⟩ := env
  constructor
  · cases key with
    | none => simp [generateMessageDraft]
    | some k =>
      cases creds with
      | none =>
        simp only [generateMessageDraft]
        rw [directOpenAICall_error_iff]
        simp [cacheDelivers]
      | some cr =>
        cases cacheRes with
        | error e =>
          simp only [generateMessageDraft]
          rw [directOpenAICall_error_iff]
          simp [cacheDelivers]
        | ok c =>
          by_cases hc : jsTrim (c.getD "") = ""
          · simp only [generateMessageDraft, hc, ne_eq, not_true_eq_false, if_false]
            rw [directOpenAICall_error_iff]
            simp [cacheDelivers, hc]
          · simp [generateMessageDraft, hc, cacheDelivers]
  · intro hkey hdirect
    have hok : ∃ m, directOpenAICall ⟨key, creds, cacheRes, directRes⟩ = Except.ok m := by
      have hne : ¬ ∃ e, directOpenAICall ⟨key, creds, cacheRes, directRes⟩ = Except.error e :=
        fun hex => hdirect ((directOpenAICall_error_iff _).mp hex)
      cases hres : directOpenAICall ⟨key, creds, cacheRes, directRes⟩ with
      | error e => exact absurd ⟨e, hres⟩ hne
      | ok m => exact ⟨m, rfl⟩
    cases key with
    | none => simp at hkey
    | some k =>
      cases creds with
      | none => simpa [generateMessageDraft] using hok
      | some cr =>
        cases cacheRes with
        | error e => simpa [generateMessageDraft] using hok
        | ok c =>
          by_cases hc : jsTrim (c.getD "") = ""
          · simpa [generateMessageDraft, hc] using hok
          · exact ⟨jsTrim (c.getD ""), by simp [generateMessageDraft, hc]⟩

/-- Witness for C3: with a key, no cache credentials, a failing relay
outcome and a successful direct call, the draft is produced. -/
theorem generateDraftFailureConditionWitness :
    ∃ m, (generateMessageDraft
      ⟨some "sk", none, Except.error "relay down", Except.ok (some "hello there")⟩).result
        = Except.ok m :=
  (generateDraftFailureCondition
    ⟨some "sk", none, Except.error "relay down", Except.ok (some "hello there")⟩).2
    rfl
    (by
      rintro (⟨e, he⟩ | ⟨c, hc, h⟩)
      · exact Except.noConfusion he
      · injection hc with hc
        subst hc
        exact absurd h (by decide))

/-- Witness for C10: no key with configured list `["Colleague/friend"]`
returns the default, which is outside that list; and an unmatched label
defaults to the first configured category. -/
theorem noKeyCategoryBypassesConfiguredListWitness :
    ((categorizeInteraction ⟨none, some ["Colleague/friend"], Except.ok none⟩).category
        = some "Recruiter inbound" ∧
      ∀ c ∈ ["Colleague/friend"],
        (categorizeInteraction ⟨none, some ["Colleague/friend"], Except.ok none⟩).category
          ≠ some c) ∧
      (categorizeInteraction ⟨some "sk", some ["Aaa", "Bbb"], Except.ok (some "zzz")⟩).category
        = (["Aaa", "Bbb"] : List String).head? :=
  ⟨noKeyCategoryBypassesConfiguredList.1 ⟨none, some ["Colleague/friend"], Except.ok none⟩
      ["Colleague/friend"] rfl (by decide),
    noKeyCategoryBypassesConfiguredList.2 "sk" ["Aaa", "Bbb"] (some "zzz") (by decide)⟩

/-- Per-character token written into the field for one message
character: escaping composed with the newline replacement. -/
def encodedToken (c : Char) : List Char :=
  (escapeHtmlChar c).flatMap breakNewlineChar

/-- The body written by `insertMessage` is the concatenation of the
per-character tokens. -/
theorem escape_break_flatMap (l : List Char) :
    (l.flatMap escapeHtmlChar).flatMap breakNewlineChar = l.flatMap encodedToken := by
  induction l with
  | nil => rfl
  | cons c l ih =>
    simp only [List.flatMap_cons, List.flatMap_append, ih, encodedToken]

/-- Decoding equation for the `&amp;` entity. -/
theorem renderFrag_amp (rest : List Char) :
    renderFrag ('&' :: 'a' :: 'm' :: 'p' :: ';' :: rest) = '&' :: renderFrag rest := rfl

/-- Decoding equation for the `&lt;` entity. -/
theorem renderFrag_lt (rest : List Char) :
    renderFrag ('&' :: 'l' :: 't' :: ';' :: rest) = '<' :: renderFrag rest := rfl

/-- Decoding equation for the `&gt;` entity. -/
theorem renderFrag_gt (rest : List Char) :
    renderFrag ('&' :: 'g' :: 't' :: ';' :: rest) = '>' :: renderFrag rest := rfl

/-- Decoding equation for the `<br>` tag. -/
theorem renderFrag_br (rest : List Char) :
    renderFrag ('<' :: 'b' :: 'r' :: '>' :: rest) = '\n' :: renderFrag rest := rfl

/-- Decoding equation for the opening `<p>` tag. -/
theorem renderFrag_pOpen (rest : List Char) :
    renderFrag ('<' :: 'p' :: '>' :: rest) = renderFrag rest := rfl

/-- Decoding equation for a literal character. -/
theorem renderFrag_lit (c : Char) (rest : List Char) (h1 : c ≠ '&') (h2 : c ≠ '<') :
    renderFrag (c :: rest) = c :: renderFrag rest :=
  renderFrag.eq_8 c rest (fun _ hc _ => absurd hc h1) (fun _ hc _ => absurd hc h1)
    (fun _ hc _ => absurd hc h1) (fun _ hc _ => absurd hc h2) (fun _ hc _ => absurd hc h2)
    (fun _ hc _ => absurd hc h2)

/-- Decoding the tokens of `l` followed by the closing `</p>` recovers
`l` exactly. -/
theorem renderFrag_tokens (l : List Char) :
    renderFrag (l.flatMap encodedToken ++ ['<', '/', 'p', '>']) = l := by
  induction l with
  | nil => rfl
  | cons c l ih =>
    rw [List.flatMap_cons, List.append_assoc]
    by_cases h1 : c = '&'
    · subst h1
      rw [show encodedToken '&' = ['&', 'a', 'm', 'p', ';'] from rfl]
      simp only [List.cons_append, List.nil_append]
      rw [renderFrag_amp, ih]
    by_cases h2 : c = '<'
    · subst h2
      rw [show encodedToken '<' = ['&', 'l', 't', ';'] from rfl]
      simp only [List.cons_append, List.nil_append]
      rw [renderFrag_lt, ih]
    by_cases h3 : c = '>'
    · subst h3
      rw [show encodedToken '>' = ['&', 'g', 't', ';'] from rfl]
      simp only [List.cons_append, List.nil_append]
      rw [renderFrag_gt, ih]
    by_cases h4 : c = '\n'
    · subst h4
      rw [show encodedToken '\n' = ['<', 'b', 'r', '>'] from rfl]
      simp only [List.cons_append, List.nil_append]
      rw [renderFrag_br, ih]
    · have htok : encodedToken c = [c] := by
        unfold encodedToken escapeHtmlChar
        rw [if_neg h1, if_neg h2, if_neg h3]
        unfold breakNewlineChar
        simp [h4]
      rw [htok]
      simp only [List.cons_append, List.nil_append]
      rw [renderFrag_lit c _ h1 h2, ih]

/-- C9: for every non-empty message, `insertMessage` reports success,
writes exactly the escaped HTML into the field, and that HTML renders
back to the literal message text — markup characters appear verbatim
and each newline becomes a line break, never parsed markup. -/
theorem insertMessageEscapesHtml (message : String) (node : Nat) (st : PageState)
    (h : message ≠ "") :
    (insertMessage node message st).2 = true ∧
      ((insertMessage node message st).1).content node = insertedHTML message ∧
      renderedText (insertedHTML message) = message := by
  refine ⟨?_, ?_, ?_⟩
  · simp [insertMessage, h]
  · simp [insertMessage, h]
  · unfold renderedText insertedHTML escapeHtml
    have hdata : ("<p>" ++ String.mk ((String.mk (message.data.flatMap escapeHtmlChar)).data.flatMap breakNewlineChar) ++ "</p>").data
        = '<' :: 'p' :: '>' :: (message.data.flatMap encodedToken ++ ['<', '/', 'p', '>']) := by
      simp only [String.data_append]
      rw [escape_break_flatMap]
      rfl
    rw [hdata, renderFrag_pOpen, renderFrag_tokens]

/-- Witness for C9 at a message containing markup characters and a
newline. -/
theorem insertMessageEscapesHtmlWitness :
    (insertMessage 3 "a <b> & c\nd" ⟨[], [], fun _ => ""⟩).2 = true ∧
      ((insertMessage 3 "a <b> & c\nd" ⟨[], [], fun _ => ""⟩).1).content 3
        = insertedHTML "a <b> & c\nd" ∧
      renderedText (insertedHTML "a <b> & c\nd") = "a <b> & c\nd" :=
  insertMessageEscapesHtml "a <b> & c\nd" 3 ⟨[], [], fun _ => ""⟩ (by decide)

/-- The accumulating loop is symmetric in its two vectors. -/
theorem sumProd_comm : ∀ v1 v2 : List ℝ, sumProd v1 v2 = sumProd v2 v1 := by
  intro v1
  induction v1 with
  | nil => intro v2; cases v2 <;> simp [sumProd]
  | cons x xs ih =>
    intro v2
    cases v2 with
    | nil => simp [sumProd]
    | cons y ys => simp [sumProd, ih, mul_comm]

/-- The accumulated squared norm is non-negative. -/
theorem sumProd_self_nonneg : ∀ v : List ℝ, 0 ≤ sumProd v v := by
  intro v
  induction v with
  | nil => simp [sumProd]
  | cons x xs ih =>
    simp only [sumProd]
    nlinarith [mul_self_nonneg x]

/-- Cauchy–Schwarz for the accumulating loop, in square-root form. -/
theorem abs_sumProd_le : ∀ v1 v2 : List ℝ,
    |sumProd v1 v2| ≤ Real.sqrt (sumProd v1 v1) * Real.sqrt (sumProd v2 v2) := by
  intro v1
  induction v1 with
  | nil =>
    intro v2
    have h : sumProd ([] : List ℝ) v2 = 0 := by cases v2 <;> rfl
    rw [h]
    simp only [abs_zero]
    positivity
  | cons x xs ih =>
    intro v2
    cases v2 with
    | nil =>
      simp only [sumProd, abs_zero]
      positivity
    | cons y ys =>
      have hA : 0 ≤ sumProd xs xs := sumProd_self_nonneg xs
      have hB : 0 ≤ sumProd ys ys := sumProd_self_nonneg ys
      simp only [sumProd]
      have h1 : |x * y + sumProd xs ys| ≤
          |x| * |y| + Real.sqrt (sumProd xs xs) * Real.sqrt (sumProd ys ys) := by
        calc |x * y + sumProd xs ys| ≤ |x * y| + |sumProd xs ys| := abs_add _ _
          _ ≤ |x| * |y| + Real.sqrt (sumProd xs xs) * Real.sqrt (sumProd ys ys) := by
              rw [abs_mul]
              exact add_le_add_left (ih ys) _
      refine h1.trans ?_
      have hx2 : (0 : ℝ) ≤ x * x + sumProd xs xs := by nlinarith [mul_self_nonneg x]
      have hy2 : (0 : ℝ) ≤ y * y + sumProd ys ys := by nlinarith [mul_self_nonneg y]
      rw [← Real.sqrt_mul hx2]
      have hnn : 0 ≤ |x| * |y| + Real.sqrt (sumProd xs xs) * Real.sqrt (sumProd ys ys) := by
        positivity
      rw [show (|x| * |y| + Real.sqrt (sumProd xs xs) * Real.sqrt (sumProd ys ys)) =
        Real.sqrt ((|x| * |y| + Real.sqrt (sumProd xs xs) * Real.sqrt (sumProd ys ys)) ^ 2)
        from (Real.sqrt_sq hnn).symm]
      apply Real.sqrt_le_sqrt
      have e1 : Real.sqrt (sumProd xs xs) ^ 2 = sumProd xs xs := Real.sq_sqrt hA
      have e2 : Real.sqrt (sumProd ys ys) ^ 2 = sumProd ys ys := Real.sq_sqrt hB
      have e3 : |x| ^ 2 = x * x := by rw [sq_abs]; ring
      have e4 : |y| ^ 2 = y * y := by rw [sq_abs]; ring
      have amgm : 2 * (|x| * Real.sqrt (sumProd ys ys)) * (|y| * Real.sqrt (sumProd xs xs)) ≤
          (|x| * Real.sqrt (sumProd ys ys)) ^ 2 + (|y| * Real.sqrt (sumProd xs xs)) ^ 2 :=
        two_mul_le_add_sq _ _
      nlinarith [Real.sqrt_nonneg (sumProd xs xs), Real.sqrt_nonneg (sumProd ys ys),
        abs_nonneg x, abs_nonneg y]

/-- C7: `cosineSimilarity` is symmetric, bounded in `[-1, 1]` on every
input, and returns 0 for mismatched lengths, for an absent vector, and
for a zero-norm operand. -/
theorem cosineSimilarityProperties (a b : Option (List ℝ)) :
    cosineSimilarity a b = cosineSimilarity b a ∧
      (-1 ≤ cosineSimilarity a b ∧ cosineSimilarity a b ≤ 1) ∧
      (∀ v1 v2, a = some v1 → b = some v2 → v1.length ≠ v2.length →
        cosineSimilarity a b = 0) ∧
      ((a = none ∨ b = none) → cosineSimilarity a b = 0) ∧
      (∀ v1 v2, a = some v1 → b = some v2 →
        (sumProd v1 v1 = 0 ∨ sumProd v2 v2 = 0) → cosineSimilarity a b = 0) := by
  refine ⟨?_, ?_, ?_, ?_, ?_⟩
  · cases a with
    | none => cases b <;> rfl
    | some v1 =>
      cases b with
      | none => rfl
      | some v2 =>
        simp only [cosineSimilarity]
        by_cases hlen : v1.length = v2.length
        · have h1 : ¬(v1.length ≠ v2.length) := by simp [hlen]
          have h2 : ¬(v2.length ≠ v1.length) := by simp [hlen]
          rw [if_neg h1, if_neg h2,
            mul_comm (Real.sqrt (sumProd v2 v2)) (Real.sqrt (sumProd v1 v1)),
            sumProd_comm v2 v1]
        · have h2 : v2.length ≠ v1.length := fun hh => hlen hh.symm
          rw [if_pos hlen, if_pos h2]
  · cases a with
    | none =>
      cases b <;> simp [cosineSimilarity]
    | some v1 =>
      cases b with
      | none => simp [cosineSimilarity]
      | some v2 =>
        simp only [cosineSimilarity]
        by_cases hlen : v1.length ≠ v2.length
        · rw [if_pos hlen]; norm_num
        · rw [if_neg hlen]
          by_cases hden : Real.sqrt (sumProd v1 v1) * Real.sqrt (sumProd v2 v2) = 0
          · simp only [hden, if_pos rfl]; norm_num
          · simp only [hden, if_neg hden]
            have hpos : 0 < Real.sqrt (sumProd v1 v1) * Real.sqrt (sumProd v2 v2) :=
              lt_of_le_of_ne (by positivity) (Ne.symm hden)
            have habs : |sumProd v1 v2 / (Real.sqrt (sumProd v1 v1) * Real.sqrt (sumProd v2 v2))| ≤ 1 := by
              rw [abs_div, abs_of_pos hpos]
              rw [div_le_one hpos]
              exact abs_sumProd_le v1 v2
            exact abs_le.mp habs
  · rintro v1 v2 rfl rfl hne
    simp [cosineSimilarity, hne]
  · rintro (rfl | rfl)
    · cases b <;> rfl
    · cases a <;> rfl
  · rintro v1 v2 rfl rfl (h | h) <;> simp only [cosineSimilarity]
    · by_cases hlen : v1.length ≠ v2.length
      · rw [if_pos hlen]
      · rw [if_neg hlen, if_pos (by rw [h, Real.sqrt_zero, zero_mul])]
    · by_cases hlen : v1.length ≠ v2.length
      · rw [if_pos hlen]
      · rw [if_neg hlen, if_pos (by rw [h, Real.sqrt_zero, mul_zero])]

/-- Witness for C7 at concrete vectors: mismatched lengths, a zero-norm
pair, and an absent operand all yield 0. -/
theorem cosineSimilarityPropertiesWitness :
    cosineSimilarity (some [1]) (some [1, 2]) = 0 ∧
      cosineSimilarity (some [0, 0]) (some [0, 0]) = 0 ∧
      cosineSimilarity none (some [1]) = 0 :=
  ⟨(cosineSimilarityProperties (some [1]) (some [1, 2])).2.2.1 [1] [1, 2] rfl rfl (by decide),
    (cosineSimilarityProperties (some [0, 0]) (some [0, 0])).2.2.2.2 [0, 0] [0, 0] rfl rfl
      (Or.inl (by norm_num [sumProd])),
    (cosineSimilarityProperties none (some [1])).2.2.2.1 (Or.inl rfl)⟩

/-- Appending a fresh pair makes it the first (and only) hit for its
key. -/
theorem find_append_single (l : List (String × CacheEntry)) (k : String) (v : CacheEntry)
    (h : ∀ p ∈ l, (p.1 == k) = false) :
    (l ++ [(k, v)]).find? (fun p => p.1 == k) = some (k, v) := by
  induction l with
  | nil => simp [List.find?]
  | cons p l ih =>
    have hp := h p (by simp)
    simp only [List.cons_append, List.find?, hp]
    exact ih fun q hq => h q (by simp [hq])

/-- Replacing every pair carrying key `k` makes `(k, v)` the first hit
for `k`, provided some pair carried it. -/
theorem find_map_replace (l : List (String × CacheEntry)) (k : String) (v : CacheEntry)
    (h : l.any (fun p => p.1 == k) = true) :
    (l.map (fun p => if p.1 == k then (k, v) else p)).find? (fun p => p.1 == k)
      = some (k, v) := by
  induction l with
  | nil => simp at h
  | cons p l ih =>
    by_cases hp : (p.1 == k) = true
    · rw [List.map_cons, if_pos hp]
      exact List.find?_cons_of_pos _ (by simp)
    · have hp' : (p.1 == k) = false := by simpa using hp
      rw [List.map_cons, if_neg hp, List.find?_cons_of_neg _ (by simp [hp'])]
      apply ih
      simpa [List.any_cons, hp'] using h

/-- `entries[k] = v` followed by a lookup of `k` finds exactly `(k, v)`. -/
theorem jsObjectSet_find (l : List (String × CacheEntry)) (k : String) (v : CacheEntry) :
    (jsObjectSet l k v).find? (fun p => p.1 == k) = some (k, v) := by
  unfold jsObjectSet
  by_cases h : l.any (fun p => p.1 == k) = true
  · rw [if_pos h]
    exact find_map_replace l k v h
  · rw [if_neg h]
    apply find_append_single
    intro p hp
    by_contra hc
    exact h (List.any_eq_true.mpr ⟨p, hp, by simpa using hc⟩)

/-- An object update grows the entry list by at most one. -/
theorem jsObjectSet_length_le (l : List (String × CacheEntry)) (k : String) (v : CacheEntry) :
    (jsObjectSet l k v).length ≤ l.length + 1 := by
  unfold jsObjectSet
  by_cases h : l.any (fun p => p.1 == k) = true
  · simp [h]
  · simp [h]

/-- C4: storing a cache entry under the deterministic key of a
`(prompt, model, temperature, maxTokens, systemPrompt)` tuple and then
calling `cachedOpenAICall` with the identical tuple returns the stored
response as an exact-match hit with `cached: true`, leaves the cache
unchanged, and performs no completion-endpoint (and no
embedding-endpoint) call. The store must be configured, have room below
the 1000-entry cap, and the stored response must be non-empty (an empty
response is falsy and bypasses the exact-hit return). -/
theorem cacheExactRoundTrip (st : CacheState) (now : Nat)
    (promptText systemPrompt model : String) (temperature : ℚ) (maxTokens : Option ℚ)
    (response : String) (embedding : Option (List ℝ)) (meta : CacheMeta) (apiKey : String)
    (env : CallEnv) (useSem : Bool) (thr : ℝ) (st2 : CacheState) (outcome : CallOutcome)
    (hconf : st.redisConfigured = true)
    (hroom : st.entries.length < 1000)
    (hresp : response ≠ "")
    (hst2 : st2 = (storeInRedis now
      (generateCacheKey promptText ⟨some model, some temperature, maxTokens, some systemPrompt⟩)
      promptText response embedding meta st).1)
    (hout : outcome = cachedOpenAICall
      ⟨model, [⟨"system", systemPrompt⟩, ⟨"user", promptText⟩], temperature, maxTokens,
        some apiKey, useSem, thr⟩ env st2) :
    outcome.result = Except.ok (response, true, none) ∧ outcome.state = st2 ∧
      outcome.completionCalls = 0 ∧ outcome.embeddingCalls = 0 := by
  have hentry : st2 = ⟨st.redisConfigured,
      jsObjectSet st.entries
        (generateCacheKey promptText ⟨some model, some temperature, maxTokens, some systemPrompt⟩)
        ⟨generateCacheKey promptText ⟨some model, some temperature, maxTokens, some systemPrompt⟩,
          promptText, response, embedding, meta, now⟩⟩ := by
    rw [hst2]
    have hle := jsObjectSet_length_le st.entries
      (generateCacheKey promptText ⟨some model, some temperature, maxTokens, some systemPrompt⟩)
      ⟨generateCacheKey promptText ⟨some model, some temperature, maxTokens, some systemPrompt⟩,
        promptText, response, embedding, meta, now⟩
    have hnlt : ¬(1000 < (jsObjectSet st.entries
        (generateCacheKey promptText ⟨some model, some temperature, maxTokens, some systemPrompt⟩)
        ⟨generateCacheKey promptText ⟨some model, some temperature, maxTokens, some systemPrompt⟩,
          promptText, response, embedding, meta, now⟩).length) := by omega
    simp [storeInRedis, hconf, hnlt]
  have hget : getFromRedis
      (generateCacheKey promptText ⟨some model, some temperature, maxTokens, some systemPrompt⟩)
      st2 = some ⟨generateCacheKey promptText ⟨some model, some temperature, maxTokens, some systemPrompt⟩,
        promptText, response, embedding, meta, now⟩ := by
    rw [hentry]
    simp [getFromRedis, hconf, jsObjectSet_find]
  rw [hout]
  unfold cachedOpenAICall
  simp only [List.find?, show (("system" : String) == "user") = false from rfl,
    show (("user" : String) == "user") = true from rfl,
    show (("system" : String) == "system") = true from rfl]
  simp only [Option.map_some', Option.getD_some]
  rw [hget]
  simp [hresp]

/-- Witness for C4: a concrete round trip through an empty configured
store. -/
theorem cacheExactRoundTripWitness :
    (cachedOpenAICall
        ⟨"gpt-4o-mini", [⟨"system", "sys"⟩, ⟨"user", "hello"⟩], 7 / 10, some 500,
          some "sk", false, 0.85⟩
        ⟨none, Except.error "offline", 42⟩
        (storeInRedis 41
          (generateCacheKey "hello" ⟨some "gpt-4o-mini", some (7 / 10), some 500, some "sys"⟩)
          "hello" "cached answer" none ⟨none, none, none, none⟩ ⟨true, []⟩).1).result
      = Except.ok ("cached answer", true, none) :=
  (cacheExactRoundTrip ⟨true, []⟩ 41 "hello" "sys" "gpt-4o-mini" (7 / 10) (some 500)
    "cached answer" none ⟨none, none, none, none⟩ "sk" ⟨none, Except.error "offline", 42⟩
    false 0.85 _ _ rfl (by decide) (by decide) rfl rfl).1

/-- Replacing under an existing key leaves the object's key sequence
unchanged. -/
theorem jsObjectSet_replace_map_fst (l : List (String × CacheEntry)) (k : String)
    (v : CacheEntry) :
    ((l.map (fun p => if p.1 == k then (k, v) else p)).map Prod.fst) = l.map Prod.fst := by
  rw [List.map_map]
  apply List.map_congr_left
  intro p _
  by_cases hp : (p.1 == k) = true
  · simp only [Function.comp_apply, hp, if_true]
    exact (eq_of_beq hp).symm
  · have hne : ¬(p.1 = k) := by simpa using hp
    simp [Function.comp_apply, hne]

/-- The head of the eviction sort is a stored pair of minimal
timestamp. -/
theorem sortHeadMin (l : List (String × CacheEntry)) (hne : l ≠ []) :
    ∃ m0 restS, sortEntriesByTs l = m0 :: restS ∧ m0 ∈ l ∧
      ∀ q ∈ l, entryTs m0 ≤ entryTs q := by
  have hperm : (sortEntriesByTs l).Perm l := List.perm_insertionSort tsLE l
  cases hs : sortEntriesByTs l with
  | nil =>
    rw [hs] at hperm
    exact absurd (hperm.symm.eq_nil) hne
  | cons m0 restS =>
    have hsorted := List.sorted_insertionSort tsLE l
    rw [show List.insertionSort tsLE l = sortEntriesByTs l from rfl, hs] at hsorted
    have hall := (List.sorted_cons.mp hsorted).1
    rw [hs] at hperm
    refine ⟨m0, restS, rfl, hperm.subset (by simp), ?_⟩
    intro q hq
    have hq' : q ∈ m0 :: restS := hperm.symm.subset hq
    rcases List.mem_cons.mp hq' with rfl | hq''
    · exact le_refl _
    · exact hall q hq''

/-- Filtering a middle element out by its key, under distinct keys:
the result is the two flanks, exactly one entry shorter, without the
key, containing every other pair, with keys still distinct. -/
theorem filterOutKey (l : List (String × CacheEntry)) (m0 : String × CacheEntry)
    (hm : m0 ∈ l) (hN : (l.map Prod.fst).Nodup) :
    (l.filter (fun p => !(p.1 == m0.1))).length + 1 = l.length ∧
      m0.1 ∉ (l.filter (fun p => !(p.1 == m0.1))).map Prod.fst ∧
      (∀ p ∈ l, p ≠ m0 → p ∈ l.filter (fun p => !(p.1 == m0.1))) ∧
      ((l.filter (fun p => !(p.1 == m0.1))).map Prod.fst).Nodup := by
  obtain ⟨l1, l2, rfl⟩ := List.append_of_mem hm
  have hmid : (m0.1 :: (l1.map Prod.fst ++ l2.map Prod.fst)).Nodup := by
    rw [← List.nodup_middle]
    simpa [List.map_append] using hN
  rw [List.nodup_cons] at hmid
  obtain ⟨hnotin, hrestN⟩ := hmid
  have hkey1 : ∀ p ∈ l1, (p.1 == m0.1) = false := by
    intro p hp
    have hmem : p.1 ∈ l1.map Prod.fst ++ l2.map Prod.fst :=
      List.mem_append.mpr (Or.inl (List.mem_map.mpr ⟨p, hp, rfl⟩))
    by_contra hc
    rw [Bool.not_eq_false, beq_iff_eq] at hc
    rw [hc] at hmem
    exact hnotin hmem
  have hkey2 : ∀ p ∈ l2, (p.1 == m0.1) = false := by
    intro p hp
    have hmem : p.1 ∈ l1.map Prod.fst ++ l2.map Prod.fst :=
      List.mem_append.mpr (Or.inr (List.mem_map.mpr ⟨p, hp, rfl⟩))
    by_contra hc
    rw [Bool.not_eq_false, beq_iff_eq] at hc
    rw [hc] at hmem
    exact hnotin hmem
  have hf1 : l1.filter (fun p => !(p.1 == m0.1)) = l1 :=
    List.filter_eq_self.mpr (fun p hp => by simp [hkey1 p hp])
  have hf2 : l2.filter (fun p => !(p.1 == m0.1)) = l2 :=
    List.filter_eq_self.mpr (fun p hp => by simp [hkey2 p hp])
  have hfm : (m0 :: l2).filter (fun p => !(p.1 == m0.1)) = l2 := by
    rw [List.filter_cons]
    simp [hf2]
  have hfilter : (l1 ++ m0 :: l2).filter (fun p => !(p.1 == m0.1)) = l1 ++ l2 := by
    rw [List.filter_append, hf1, hfm]
  rw [hfilter]
  refine ⟨by simp; try omega, ?_, ?_, ?_⟩
  · simpa [List.map_append] using hnotin
  · intro p hp hpm
    rcases List.mem_append.mp hp with hp1 | hp2
    · exact List.mem_append.mpr (Or.inl hp1)
    · rcases List.mem_cons.mp hp2 with rfl | hp2'
      · exact absurd rfl hpm
      · exact List.mem_append.mpr (Or.inr hp2')
  · simpa [List.map_append] using hrestN

/-- A key absent from the object makes the update an append. -/
theorem jsObjectSet_append (st : CacheState) (k : String) (v : CacheEntry)
    (hany : st.entries.any (fun p => p.1 == k) = false) :
    jsObjectSet st.entries k v = st.entries ++ [(k, v)] := by
  simp [jsObjectSet, hany]

/-- Unfolding of `storeInRedis` on a configured store whose update
crosses the cap. -/
theorem storeInRedis_entries_evict (now : Nat) (k pr resp : String) (emb : Option (List ℝ))
    (meta : CacheMeta) (st : CacheState)
    (hconf : st.redisConfigured = true)
    (hgt : 1000 < (jsObjectSet st.entries k ⟨k, pr, resp, emb, meta, now⟩).length) :
    (storeInRedis now k pr resp emb meta st).1.entries
      = (jsObjectSet st.entries k ⟨k, pr, resp, emb, meta, now⟩).filter
          (fun p => !((((sortEntriesByTs (jsObjectSet st.entries k
              ⟨k, pr, resp, emb, meta, now⟩)).map Prod.fst).take
            ((jsObjectSet st.entries k ⟨k, pr, resp, emb, meta, now⟩).length - 1000)).contains
            p.1)) := by
  unfold storeInRedis
  rw [if_neg (by simp [hconf])]
  dsimp only
  rw [if_pos hgt]

/-- Unfolding of `storeInRedis` on a configured store whose update
stays within the cap. -/
theorem storeInRedis_entries_noEvict (now : Nat) (k pr resp : String) (emb : Option (List ℝ))
    (meta : CacheMeta) (st : CacheState)
    (hconf : st.redisConfigured = true)
    (hngt : ¬ 1000 < (jsObjectSet st.entries k ⟨k, pr, resp, emb, meta, now⟩).length) :
    (storeInRedis now k pr resp emb meta st).1.entries
      = jsObjectSet st.entries k ⟨k, pr, resp, emb, meta, now⟩ := by
  unfold storeInRedis
  rw [if_neg (by simp [hconf])]
  dsimp only
  rw [if_neg hngt]

/-- Storing a fresh key into a full (1000-entry) configured store: the
result is the appended list filtered by the key of a minimal-timestamp
pair. -/
theorem storeEvictCase (now : Nat) (k pr resp : String) (emb : Option (List ℝ))
    (meta : CacheMeta) (st : CacheState)
    (hconf : st.redisConfigured = true)
    (hany : st.entries.any (fun p => p.1 == k) = false)
    (hlen : st.entries.length = 1000) :
    ∃ m0, m0 ∈ st.entries ++ [(k, (⟨k, pr, resp, emb, meta, now⟩ : CacheEntry))] ∧
      (∀ q ∈ st.entries ++ [(k, (⟨k, pr, resp, emb, meta, now⟩ : CacheEntry))],
        entryTs m0 ≤ entryTs q) ∧
      (storeInRedis now k pr resp emb meta st).1.entries
        = (st.entries ++ [(k, (⟨k, pr, resp, emb, meta, now⟩ : CacheEntry))]).filter
            (fun p => !(p.1 == m0.1)) := by
  have happend := jsObjectSet_append st k ⟨k, pr, resp, emb, meta, now⟩ hany
  have hLlen : (st.entries ++ [(k, (⟨k, pr, resp, emb, meta, now⟩ : CacheEntry))]).length
      = 1001 := by simp [hlen]
  have hLne : st.entries ++ [(k, (⟨k, pr, resp, emb, meta, now⟩ : CacheEntry))] ≠ [] := by
    intro h
    rw [h] at hLlen
    simp at hLlen
  obtain ⟨m0, restS, hs, hm0mem, hm0min⟩ :=
    sortHeadMin (st.entries ++ [(k, (⟨k, pr, resp, emb, meta, now⟩ : CacheEntry))]) hLne
  have htake1 : ((sortEntriesByTs
      (st.entries ++ [(k, (⟨k, pr, resp, emb, meta, now⟩ : CacheEntry))])).map Prod.fst).take 1
      = [m0.1] := by
    rw [hs]
    rfl
  refine ⟨m0, hm0mem, hm0min, ?_⟩
  have hgt : 1000 < (jsObjectSet st.entries k ⟨k, pr, resp, emb, meta, now⟩).length := by
    rw [happend, hLlen]
    norm_num
  rw [storeInRedis_entries_evict now k pr resp emb meta st hconf hgt, happend, hLlen,
    show (1001 - 1000 : Nat) = 1 from rfl, htake1]
  apply List.filter_congr
  intro p _
  by_cases hpq : p.1 = m0.1
  · simp [hpq]
  · simp [hpq]

/-- C5: every store operation leaves the cache with at most 1000
entries (and distinct keys), and inserting a fresh 1001st entry into a
full configured store leaves exactly 1000 entries, with the pair of
strictly-oldest timestamp the one absent and every other pair
retained. -/
theorem cacheCapAndOldestEviction :
    (∀ (now : Nat) (k pr resp : String) (emb : Option (List ℝ)) (meta : CacheMeta)
      (st : CacheState),
      (st.entries.map Prod.fst).Nodup → st.entries.length ≤ 1000 →
        (storeInRedis now k pr resp emb meta st).1.entries.length ≤ 1000 ∧
          ((storeInRedis now k pr resp emb meta st).1.entries.map Prod.fst).Nodup) ∧
      (∀ (now : Nat) (k pr resp : String) (emb : Option (List ℝ)) (meta : CacheMeta)
        (st : CacheState) (m : String × CacheEntry),
        st.redisConfigured = true →
        (st.entries.map Prod.fst).Nodup →
        st.entries.length = 1000 →
        k ∉ st.entries.map Prod.fst →
        m ∈ st.entries ++ [(k, ⟨k, pr, resp, emb, meta, now⟩)] →
        (∀ p ∈ st.entries ++ [(k, ⟨k, pr, resp, emb, meta, now⟩)], p ≠ m →
          entryTs m < entryTs p) →
          (storeInRedis now k pr resp emb meta st).1.entries.length = 1000 ∧
            m.1 ∉ (storeInRedis now k pr resp emb meta st).1.entries.map Prod.fst ∧
            ∀ p ∈ st.entries ++ [(k, ⟨k, pr, resp, emb, meta, now⟩)], p ≠ m →
              p ∈ (storeInRedis now k pr resp emb meta st).1.entries) := by
  constructor
  · intro now k pr resp emb meta st hN hle
    cases hconf : st.redisConfigured with
    | false =>
      have hres : (storeInRedis now k pr resp emb meta st).1 = st := by
        simp [storeInRedis, hconf]
      rw [hres]
      exact ⟨hle, hN⟩
    | true =>
      cases hany : st.entries.any (fun p => p.1 == k) with
      | true =>
        have hmap : jsObjectSet st.entries k ⟨k, pr, resp, emb, meta, now⟩
            = st.entries.map (fun p => if p.1 == k then (k, ⟨k, pr, resp, emb, meta, now⟩) else p) := by
          simp [jsObjectSet, hany]
        have hlen2 : (jsObjectSet st.entries k ⟨k, pr, resp, emb, meta, now⟩).length
            = st.entries.length := by rw [hmap]; simp
        have hnlt : ¬ (1000 < (jsObjectSet st.entries k ⟨k, pr, resp, emb, meta, now⟩).length) := by
          omega
        rw [storeInRedis_entries_noEvict now k pr resp emb meta st hconf hnlt]
        constructor
        · omega
        · rw [hmap, jsObjectSet_replace_map_fst]
          exact hN
      | false =>
        have hknotin : k ∉ st.entries.map Prod.fst := by
          intro hk
          obtain ⟨p, hp, hpk⟩ := List.mem_map.mp hk
          rw [List.any_eq_false] at hany
          exact hany p hp (by simp [hpk])
        have happend := jsObjectSet_append st k ⟨k, pr, resp, emb, meta, now⟩ hany
        have hNL : ((st.entries ++ [(k, (⟨k, pr, resp, emb, meta, now⟩ : CacheEntry))]).map
            Prod.fst).Nodup := by
          simp only [List.map_append, List.map_cons, List.map_nil]
          rw [List.nodup_append]
          exact ⟨hN, List.nodup_singleton k, by simpa using hknotin⟩
        by_cases hfull : st.entries.length = 1000
        · obtain ⟨m0, hm0mem, _, hres⟩ :=
            storeEvictCase now k pr resp emb meta st hconf hany hfull
          obtain ⟨hlen1, _, _, hN1⟩ := filterOutKey _ m0 hm0mem hNL
          rw [hres]
          refine ⟨?_, hN1⟩
          have hL : (st.entries ++ [(k, (⟨k, pr, resp, emb, meta, now⟩ : CacheEntry))]).length
              = 1001 := by simp [hfull]
          omega
        · have hnlt : ¬ (1000 < (jsObjectSet st.entries k ⟨k, pr, resp, emb, meta, now⟩).length) := by
            rw [happend]
            simp only [List.length_append, List.length_cons, List.length_nil]
            omega
          rw [storeInRedis_entries_noEvict now k pr resp emb meta st hconf hnlt, happend]
          refine ⟨?_, hNL⟩
          simp only [List.length_append, List.length_cons, List.length_nil]
          omega
  · intro now k pr resp emb meta st m hconf hN hlen hknotin hm hmin
    have hany : st.entries.any (fun p => p.1 == k) = false := by
      rw [List.any_eq_false]
      intro p hp hpk
      exact hknotin (List.mem_map.mpr ⟨p, hp, by simpa using hpk⟩)
    have hNL : ((st.entries ++ [(k, (⟨k, pr, resp, emb, meta, now⟩ : CacheEntry))]).map
        Prod.fst).Nodup := by
      simp only [List.map_append, List.map_cons, List.map_nil]
      rw [List.nodup_append]
      exact ⟨hN, List.nodup_singleton k, by simpa using hknotin⟩
    obtain ⟨m0, hm0mem, hm0min, hres⟩ := storeEvictCase now k pr resp emb meta st hconf hany hlen
    have hm0 : m0 = m := by
      by_contra hne
      have h1 := hmin m0 hm0mem hne
      have h2 := hm0min m hm
      omega
    subst hm0
    obtain ⟨hlen1, hnot1, hkeep1, _⟩ := filterOutKey _ m0 hm0mem hNL
    rw [hres]
    have hL : (st.entries ++ [(k, (⟨k, pr, resp, emb, meta, now⟩ : CacheEntry))]).length
        = 1001 := by simp [hlen]
    exact ⟨by omega, hnot1, hkeep1⟩

set_option maxRecDepth 8000

/-- Distinct keys for the eviction witness: the key of index `i` is a
string of `i` letters. -/
def bigKey (i : Nat) : String := String.mk (List.replicate i 'a')

/-- Entry of index `i` for the eviction witness, with timestamp `i`. -/
def bigEntry (i : Nat) : CacheEntry :=
  ⟨bigKey i, "", "resp", none, ⟨none, none, none, none⟩, i⟩

/-- A full configured store of 1000 entries with distinct keys and
distinct timestamps 0..999. -/
def bigStore : CacheState :=
  ⟨true, (List.range 1000).map fun i => (bigKey i, bigEntry i)⟩

/-- The witness keys are injective. -/
theorem bigKey_inj : Function.Injective bigKey := by
  intro i j h
  have h2 : List.replicate i 'a' = List.replicate j 'a' := congrArg String.data h
  have h3 := congrArg List.length h2
  simpa using h3

/-- The witness store's keys are distinct. -/
theorem bigStore_nodup : (bigStore.entries.map Prod.fst).Nodup := by
  show (((List.range 1000).map fun i => (bigKey i, bigEntry i)).map Prod.fst).Nodup
  rw [List.map_map]
  exact (List.nodup_range 1000).map (fun i j h => bigKey_inj h)

/-- The 1001st key is fresh. -/
theorem bigStore_fresh : bigKey 1000 ∉ bigStore.entries.map Prod.fst := by
  intro hmem
  rw [show bigStore.entries = (List.range 1000).map fun i => (bigKey i, bigEntry i) from rfl,
    List.map_map] at hmem
  obtain ⟨i, hi, hkey⟩ := List.mem_map.mp hmem
  have hieq : i = 1000 := bigKey_inj hkey
  rw [List.mem_range] at hi
  omega

/-- Entry 0 has the strictly oldest timestamp among the 1001. -/
theorem bigStore_min : ∀ p ∈ bigStore.entries ++
    [(bigKey 1000, (⟨bigKey 1000, "", "r2", none, ⟨none, none, none, none⟩, 1000⟩ : CacheEntry))],
    p ≠ (bigKey 0, bigEntry 0) → entryTs (bigKey 0, bigEntry 0) < entryTs p := by
  intro p hp hne
  rcases List.mem_append.mp hp with h1 | h2
  · obtain ⟨i, hi, rfl⟩ := List.mem_map.mp h1
    have hiz : i ≠ 0 := by
      rintro rfl
      exact hne rfl
    show entryTs (bigKey 0, bigEntry 0) < entryTs (bigKey i, bigEntry i)
    simp only [entryTs, bigEntry]
    omega
  · rw [List.mem_singleton] at h2
    subst h2
    show entryTs (bigKey 0, bigEntry 0) < 1000
    simp [entryTs, bigEntry]

/-- Witness for C5: a small store stays within the cap with distinct
keys, and inserting a fresh 1001st entry into the full witness store
leaves 1000 entries with the oldest-timestamp pair the one evicted. -/
theorem cacheCapAndOldestEvictionWitness :
    ((storeInRedis 5 "k" "p" "r" none ⟨none, none, none, none⟩ ⟨true, []⟩).1.entries.length
        ≤ 1000 ∧
      ((storeInRedis 5 "k" "p" "r" none ⟨none, none, none, none⟩
        ⟨true, []⟩).1.entries.map Prod.fst).Nodup) ∧
      ((storeInRedis 1000 (bigKey 1000) "" "r2" none ⟨none, none, none, none⟩
          bigStore).1.entries.length = 1000 ∧
        (bigKey 0, bigEntry 0).1 ∉ (storeInRedis 1000 (bigKey 1000) "" "r2" none
          ⟨none, none, none, none⟩ bigStore).1.entries.map Prod.fst ∧
        ∀ p ∈ bigStore.entries ++
          [(bigKey 1000, (⟨bigKey 1000, "", "r2", none, ⟨none, none, none, none⟩, 1000⟩ :
            CacheEntry))],
          p ≠ (bigKey 0, bigEntry 0) →
            p ∈ (storeInRedis 1000 (bigKey 1000) "" "r2" none ⟨none, none, none, none⟩
              bigStore).1.entries) :=
  ⟨cacheCapAndOldestEviction.1 5 "k" "p" "r" none ⟨none, none, none, none⟩ ⟨true, []⟩
      (by simp) (by simp),
    cacheCapAndOldestEviction.2 1000 (bigKey 1000) "" "r2" none ⟨none, none, none, none⟩
      bigStore (bigKey 0, bigEntry 0) rfl bigStore_nodup (by simp [bigStore]) bigStore_fresh
      (List.mem_append.mpr (Or.inl (List.mem_map.mpr
        ⟨0, List.mem_range.mpr (by norm_num), rfl⟩)))
      bigStore_min⟩

end Linky
